import Mathlib

/- Verification of the forensic signal fusion engine of the
   instamart-image-fraud-detector repository (src/detector.py).  The scoring
   logic of analyze_image_bytes, its recommendation cut points, its
   explanation string and the extract_exif helper are embedded shallowly:
   Python floats are modelled as rationals, and the per-image signal readings
   are the inputs of the fusion. -/

namespace FraudDetector

/-- The signal readings analyze_image_bytes extracts on src/detector.py lines
77-92 before its scoring logic: the EXIF fields returned by extract_exif, the
two error-level-analysis statistics, the Laplacian texture variance hf, and
the three pairwise channel correlations.  A theorem quantified over all
values of this structure covers every successfully decoded image. -/
structure Signals where
  exif_present : Bool
  software_tag : Option String
  dt_orig : Option String
  dt_dig : Option String
  dt_gen : Option String
  mean_ela : ℚ
  hot_fraction : ℚ
  hf : ℚ
  corr_rg : ℚ
  corr_gb : ℚ
  corr_rb : ℚ

/-- Rounding a rational to the nearest integer with ties going to the even
integer, as the Python builtin round does. -/
def roundHalfEven (q : ℚ) : ℤ :=
  if q - ⌊q⌋ < 1/2 then ⌊q⌋
  else if 1/2 < q - ⌊q⌋ then ⌊q⌋ + 1
  else if 2 ∣ ⌊q⌋ then ⌊q⌋ else ⌊q⌋ + 1

/-- Python round(q, k): round to k decimal places, ties to even. -/
def pyRound (k : ℕ) (q : ℚ) : ℚ := (roundHalfEven (q * 10 ^ k) : ℚ) / 10 ^ k

/-- Whether the first character list occurs as a contiguous run at the start
of the second. -/
def isPrefLC : List Char → List Char → Bool
  | [], _ => true
  | _ :: _, [] => false
  | p :: ps, h :: hs => p == h && isPrefLC ps hs

/-- Whether the first character list occurs as a contiguous run anywhere in
the second. -/
def hasSubLC (pat : List Char) : List Char → Bool
  | [] => pat.isEmpty
  | h :: hs => isPrefLC pat (h :: hs) || hasSubLC pat hs

/-- The Python membership test of a nonempty pattern in a string. -/
def strContains (s pat : String) : Bool := hasSubLC pat.data s.data

/-- Python str.lower, character by character. -/
def lowerStr (s : String) : String := String.mk (s.data.map Char.toLower)

/-- Condition 1 of the scoring logic (line 101): EXIF metadata missing. -/
def exifMissing (s : Signals) : Prop := s.exif_present = false

instance (s : Signals) : Decidable (exifMissing s) :=
  inferInstanceAs (Decidable (s.exif_present = false))

/-- The test of condition 2 on the extracted software tag (lines 106-108):
the tag is truthy (present and nonempty), and its lowercasing contains one of
the four editing keywords. -/
def tagSuspicious : Option String → Bool
  | none => false
  | some t =>
      !(t == "") &&
        (strContains (lowerStr t) "photoshop" || strContains (lowerStr t) "gemini" ||
          strContains (lowerStr t) "snapseed" || strContains (lowerStr t) "edit")

/-- Condition 2 of the scoring logic (lines 106-108): suspicious software
tag. -/
def suspiciousSoftware (s : Signals) : Prop := tagSuspicious s.software_tag = true

instance (s : Signals) : Decidable (suspiciousSoftware s) :=
  inferInstanceAs (Decidable (tagSuspicious s.software_tag = true))

/-- Condition 3 of the scoring logic (line 113): ELA anomalies. -/
def elaAnomaly (s : Signals) : Prop := 10 < s.mean_ela ∨ 2/100 < s.hot_fraction

instance (s : Signals) : Decidable (elaAnomaly s) :=
  inferInstanceAs (Decidable (10 < s.mean_ela ∨ 2/100 < s.hot_fraction))

/-- Condition 4 of the scoring logic (line 118): texture variance too low. -/
def lowTexture (s : Signals) : Prop := s.hf < 35

instance (s : Signals) : Decidable (lowTexture s) :=
  inferInstanceAs (Decidable (s.hf < 35))

/-- Condition 5 of the scoring logic (line 123): all three channel
correlations above 197/200, that is 0.985. -/
def highCorrelation (s : Signals) : Prop :=
  197/200 < s.corr_rg ∧ 197/200 < s.corr_gb ∧ 197/200 < s.corr_rb

instance (s : Signals) : Decidable (highCorrelation s) :=
  inferInstanceAs
    (Decidable (197/200 < s.corr_rg ∧ 197/200 < s.corr_gb ∧ 197/200 < s.corr_rb))

/-- Condition 6 of the scoring logic (line 128): the compound synthetic
indicator, no EXIF plus low ELA plus low texture variance. -/
def syntheticIndicator (s : Signals) : Prop :=
  s.exif_present = false ∧ s.mean_ela < 4 ∧ s.hf < 35

instance (s : Signals) : Decidable (syntheticIndicator s) :=
  inferInstanceAs (Decidable (s.exif_present = false ∧ s.mean_ela < 4 ∧ s.hf < 35))

/-- Reason phrase of condition 1 (line 103). -/
def exifReason : String := "EXIF metadata missing"

/-- Reason phrase of condition 2, the f-string of line 110; Python formats an
absent value as None. -/
def softwareReason : Option String → String
  | some t => "Software tag indicates editing: " ++ t
  | none => "Software tag indicates editing: None"

/-- Reason phrase of condition 3 (line 115). -/
def elaReason : String := "ELA hotspots detected (local edits likely)"

/-- Reason phrase of condition 4 (line 120). -/
def textureReason : String := "Very low high-frequency detail (AI-regenerated image likely)"

/-- Reason phrase of condition 5 (line 125). -/
def corrReason : String := "Abnormally high RGB channel correlation (AI signature)"

/-- Reason phrase of condition 6 (line 130). -/
def syntheticReason : String := "Strong evidence of fully synthetic or AI-modified image"

/-- The fixed phrase of line 143 used when no condition fired. -/
def noSignalsPhrase : String := "No tampering signals detected."

/-- The score accumulated by the five independently weighted conditions of
lines 97-125.  The Python code adds each weight to a running float; since no
condition reads the running score, the accumulated value is this sum. -/
def baseScore (s : Signals) : ℚ :=
  (if exifMissing s then 25/100 else 0) + (if suspiciousSoftware s then 3/10 else 0)
    + (if elaAnomaly s then 35/100 else 0) + (if lowTexture s then 3/10 else 0)
    + (if highCorrelation s then 3/10 else 0)

/-- The score after line 129: the compound synthetic indicator forces the
accumulated score up to at least 75/100. -/
def fusedScore (s : Signals) : ℚ :=
  if syntheticIndicator s then max (baseScore s) (75/100) else baseScore s

/-- Line 133: score = max(0.0, min(score, 1.0)). -/
def clampedScore (s : Signals) : ℚ := max 0 (min (fusedScore s) 1)

/-- The ordered list explanation_parts built by lines 98-130: one append per
fired condition, in program order. -/
def explanationParts (s : Signals) : List String :=
  (if exifMissing s then [exifReason] else [])
    ++ (if suspiciousSoftware s then [softwareReason s.software_tag] else [])
    ++ (if elaAnomaly s then [elaReason] else [])
    ++ (if lowTexture s then [textureReason] else [])
    ++ (if highCorrelation s then [corrReason] else [])
    ++ (if syntheticIndicator s then [syntheticReason] else [])

/-- Python sep.join on a list of strings. -/
def joinSep (sep : String) : List String → String
  | [] => ""
  | [a] => a
  | a :: b :: rest => a ++ sep ++ joinSep sep (b :: rest)

/-- Lines 136-141: the recommendation buckets from the clamped score. -/
def recommendationOf (score : ℚ) : String :=
  if score < 3/10 then ("auto_approve_ok")
  else if score < 6/10 then ("low_priority_manual_review")
  else ("high_priority_manual_review")

/-- The record returned by analyze_image_bytes (lines 145-162). -/
structure FusionResult where
  tampering_score : ℚ
  recommendation : String
  exif_present : Bool
  software_tag : Option String
  datetime_original : Option String
  datetime_digitized : Option String
  datetime_generic : Option String
  mean_ela : ℚ
  hot_fraction : ℚ
  high_freq_variance : ℚ
  corr_rg : ℚ
  corr_gb : ℚ
  corr_rb : ℚ
  explanation : String

/-- The scoring, classification and reporting part of analyze_image_bytes
(lines 97-162) as a function of the extracted signal readings. -/
def analyzeSignals (s : Signals) : FusionResult where
  tampering_score := pyRound 3 (clampedScore s)
  recommendation := recommendationOf (clampedScore s)
  exif_present := s.exif_present
  software_tag := s.software_tag
  datetime_original := s.dt_orig
  datetime_digitized := s.dt_dig
  datetime_generic := s.dt_gen
  mean_ela := pyRound 3 s.mean_ela
  hot_fraction := pyRound 3 s.hot_fraction
  high_freq_variance := pyRound 3 s.hf
  corr_rg := pyRound 4 s.corr_rg
  corr_gb := pyRound 4 s.corr_gb
  corr_rb := pyRound 4 s.corr_rb
  explanation :=
    if explanationParts s = [] then noSignalsPhrase else joinSep (" | ") (explanationParts s)

/-- Modelled from the spec: the image decoder invoked on line 71 is the
external imaging library, not code of this repository; per the spec it fails
with a DecodeError when the bytes are empty, truncated or not a supported
raster format.  The error carries its message. -/
structure DecodeError where
  msg : String

/-- analyze_image_bytes (lines 70-162): decode the bytes, then compute the
fusion result from the extracted signal readings.  The decoder is abstract (a
function from bytes to a DecodeError or the signal readings of the decoded
image, see DecodeError); since line 71 is not wrapped in a try block, a
decoding failure propagates unchanged to the caller and nothing else is
returned. -/
def analyze_image_bytes (decode : List ℕ → Except DecodeError Signals)
    (bytes : List ℕ) : Except DecodeError FusionResult :=
  match decode bytes with
  | .error e => .error e
  | .ok s => .ok (analyzeSignals s)

/-- An EXIF tag value: the tag values extract_exif handles are numeric or
string data. -/
inductive ExifVal where
  | int (n : ℤ)
  | str (s : String)
deriving DecidableEq, BEq

/-- The outcome of the imaging-library calls inside the try block of
extract_exif (lines 10-21): either some call raises, or getexif yields the
item list (tag, value) together with the IFD-0 lookup used on line 15. -/
structure ExifSource where
  raises : Bool
  items : List (ℕ × ExifVal)
  ifd0 : ℕ → Option ExifVal

/-- Python dict.get over the comprehension-built dict of line 15: with
duplicate keys the last entry wins, and a missing key yields None. -/
def dictGet (d : List (Option ExifVal × ExifVal)) (k : Option ExifVal) : Option ExifVal :=
  (d.reverse.find? (fun e => e.1 == k)).map (·.2)

/-- extract_exif (lines 9-24).  The keys of exif_dict are the IFD-0 lookups
get_ifd(0).get(tag) of line 15 (None when the tag is absent from IFD 0); the
whole body sits in a try block whose except clause returns the empty record,
so the function is total over its source of EXIF data. -/
def extract_exif (e : ExifSource) :
    Bool × Option ExifVal × Option ExifVal × Option ExifVal × Option ExifVal :=
  if e.raises then (false, none, none, none, none)
  else if e.items = [] then (false, none, none, none, none)
  else
    let exif_dict := e.items.map fun p => (e.ifd0 p.1, p.2)
    (true, dictGet exif_dict (some (.int 305)), dictGet exif_dict (some (.int 36867)),
      dictGet exif_dict (some (.int 36868)), dictGet exif_dict (some (.int 306)))

/-- Whether no condition of the scoring logic fired, so that explanation_parts
stays empty and the accumulated score stays zero. -/
def noneFired (s : Signals) : Prop :=
  ¬exifMissing s ∧ ¬suspiciousSoftware s ∧ ¬elaAnomaly s ∧ ¬lowTexture s ∧
    ¬highCorrelation s ∧ ¬syntheticIndicator s

/-- A concrete reading with absent EXIF, low ELA and low texture variance:
conditions 1, 4 and 6 fire and the additive accumulator alone reaches only
55/100. -/
def sigSynth : Signals :=
  { exif_present := false, software_tag := none, dt_orig := none, dt_dig := none,
    dt_gen := none, mean_ela := 2, hot_fraction := 0, hf := 20, corr_rg := 0,
    corr_gb := 0, corr_rb := 0 }

/-- A concrete reading with absent EXIF, zero ELA and zero texture variance. -/
def sigSynth2 : Signals :=
  { exif_present := false, software_tag := none, dt_orig := none, dt_dig := none,
    dt_gen := none, mean_ela := 0, hot_fraction := 0, hf := 0, corr_rg := 0,
    corr_gb := 0, corr_rb := 0 }

/-- A concrete reading on which no condition fires. -/
def sigBenign : Signals :=
  { exif_present := true, software_tag := none, dt_orig := none, dt_dig := none,
    dt_gen := none, mean_ela := 1, hot_fraction := 0, hf := 200, corr_rg := 0,
    corr_gb := 0, corr_rb := 0 }

/-- The reading sigBenign with the texture variance lowered below 35, so that
exactly one further condition fires. -/
def sigLowTex : Signals :=
  { exif_present := true, software_tag := none, dt_orig := none, dt_dig := none,
    dt_gen := none, mean_ela := 1, hot_fraction := 0, hf := 20, corr_rg := 0,
    corr_gb := 0, corr_rb := 0 }

/-- Auxiliary predicate: the rational scaled by 1000 is an integer.  Every
score value the fusion can produce satisfies it, so the 3-decimal rounding of
line 146 leaves the clamped score unchanged. -/
def thousandInt (q : ℚ) : Prop := ∃ n : ℤ, q * 1000 = (n : ℚ)

lemma thousandInt_ite (c : Prop) [Decidable c] {a b : ℚ} (ha : thousandInt a)
    (hb : thousandInt b) : thousandInt (if c then a else b) := by
  split
  · exact ha
  · exact hb

lemma thousandInt_add {a b : ℚ} (ha : thousandInt a) (hb : thousandInt b) :
    thousandInt (a + b) := by
  obtain ⟨n, hn⟩ := ha
  obtain ⟨m, hm⟩ := hb
  exact ⟨n + m, by push_cast [← hn, ← hm]; ring⟩

lemma thousandInt_max {a b : ℚ} (ha : thousandInt a) (hb : thousandInt b) :
    thousandInt (max a b) := by
  obtain ⟨n, hn⟩ := ha
  obtain ⟨m, hm⟩ := hb
  refine ⟨max n m, ?_⟩
  rw [max_mul_of_nonneg a b (by norm_num : (0:ℚ) ≤ 1000), hn, hm]
  exact Int.cast_max.symm

lemma thousandInt_min {a b : ℚ} (ha : thousandInt a) (hb : thousandInt b) :
    thousandInt (min a b) := by
  obtain ⟨n, hn⟩ := ha
  obtain ⟨m, hm⟩ := hb
  refine ⟨min n m, ?_⟩
  rw [min_mul_of_nonneg a b (by norm_num : (0:ℚ) ≤ 1000), hn, hm]
  exact Int.cast_min.symm

lemma baseScore_thousandInt (s : Signals) : thousandInt (baseScore s) := by
  unfold baseScore
  refine thousandInt_add (thousandInt_add (thousandInt_add (thousandInt_add ?_ ?_) ?_) ?_) ?_
  · exact thousandInt_ite _ ⟨250, by norm_num⟩ ⟨0, by norm_num⟩
  · exact thousandInt_ite _ ⟨300, by norm_num⟩ ⟨0, by norm_num⟩
  · exact thousandInt_ite _ ⟨350, by norm_num⟩ ⟨0, by norm_num⟩
  · exact thousandInt_ite _ ⟨300, by norm_num⟩ ⟨0, by norm_num⟩
  · exact thousandInt_ite _ ⟨300, by norm_num⟩ ⟨0, by norm_num⟩

lemma clampedScore_thousandInt (s : Signals) : thousandInt (clampedScore s) := by
  unfold clampedScore fusedScore
  exact thousandInt_max ⟨0, by norm_num⟩
    (thousandInt_min
      (thousandInt_ite _ (thousandInt_max (baseScore_thousandInt s) ⟨750, by norm_num⟩)
        (baseScore_thousandInt s))
      ⟨1000, by norm_num⟩)

lemma pyRound3_of_thousandInt {q : ℚ} (h : thousandInt q) : pyRound 3 q = q := by
  obtain ⟨n, hn⟩ := h
  have h1000 : (10:ℚ) ^ (3:ℕ) = 1000 := by norm_num
  unfold pyRound roundHalfEven
  rw [h1000, hn, Int.floor_intCast, sub_self, if_pos (by norm_num : (0:ℚ) < 1/2),
    div_eq_iff (by norm_num : (1000:ℚ) ≠ 0)]
  exact hn.symm

lemma clampedScore_nonneg (s : Signals) : 0 ≤ clampedScore s := le_max_left 0 _

lemma clampedScore_le_one (s : Signals) : clampedScore s ≤ 1 :=
  max_le (by norm_num) (min_le_right _ _)

lemma tampering_eq_clamped (s : Signals) :
    (analyzeSignals s).tampering_score = clampedScore s :=
  pyRound3_of_thousandInt (clampedScore_thousandInt s)

/-- C2: for every successfully decoded image, the tampering_score field of
the result of analyze_image_bytes lies in the closed interval from 0 to 1 and
equals the accumulated score clamped to that interval and rounded to 3
decimal places. -/
theorem tampering_score_clamped_rounded (s : Signals) :
    0 ≤ (analyzeSignals s).tampering_score ∧ (analyzeSignals s).tampering_score ≤ 1 ∧
      (analyzeSignals s).tampering_score = pyRound 3 (max 0 (min (fusedScore s) 1)) := by
  refine ⟨?_, ?_, rfl⟩
  · rw [tampering_eq_clamped]
    exact clampedScore_nonneg s
  · rw [tampering_eq_clamped]
    exact clampedScore_le_one s

/-- C1: for every successfully decoded image, the recommendation returned by
analyze_image_bytes is determined by the fused score via the two cut points
3/10 and 6/10: auto_approve_ok exactly when the score is strictly below 3/10,
low_priority_manual_review exactly when it is at least 3/10 and strictly
below 6/10, and high_priority_manual_review exactly when it is at least 6/10,
boundary values included. -/
theorem recommendation_cut_points (s : Signals) :
    ((analyzeSignals s).recommendation = "auto_approve_ok" ↔
        (analyzeSignals s).tampering_score < 3/10) ∧
      ((analyzeSignals s).recommendation = "low_priority_manual_review" ↔
        (3/10 ≤ (analyzeSignals s).tampering_score ∧
          (analyzeSignals s).tampering_score < 6/10)) ∧
      ((analyzeSignals s).recommendation = "high_priority_manual_review" ↔
        6/10 ≤ (analyzeSignals s).tampering_score) := by
  have hrec : (analyzeSignals s).recommendation = recommendationOf (clampedScore s) := rfl
  rw [hrec, tampering_eq_clamped]
  unfold recommendationOf
  split_ifs with h1 h2
  · exact ⟨iff_of_true rfl h1,
      iff_of_false (by decide) (fun hc => absurd h1 (not_lt.mpr hc.1)),
      iff_of_false (by decide) (not_le.mpr (h1.trans_le (by norm_num)))⟩
  · exact ⟨iff_of_false (by decide) h1,
      iff_of_true rfl ⟨not_lt.mp h1, h2⟩,
      iff_of_false (by decide) (not_le.mpr h2)⟩
  · exact ⟨iff_of_false (by decide) (fun hc => h1 (hc.trans_le (by norm_num))),
      iff_of_false (by decide) (fun hc => h2 hc.2),
      iff_of_true rfl (not_lt.mp h2)⟩

/-- C3: under the three conditions of the compound synthetic rule the fused
score before clamping is exactly the maximum of the additively accumulated
score and the floor 75/100, so the rule never lowers the score and forces it
to at least 75/100. -/
theorem synthetic_rule_floor (s : Signals) (h1 : s.exif_present = false)
    (h2 : s.mean_ela < 4) (h3 : s.hf < 35) :
    fusedScore s = max (baseScore s) (75/100) ∧ baseScore s ≤ fusedScore s ∧
      75/100 ≤ fusedScore s := by
  have hc : syntheticIndicator s := ⟨h1, h2, h3⟩
  have he : fusedScore s = max (baseScore s) (75/100) := by
    unfold fusedScore
    exact if_pos hc
  refine ⟨he, ?_, ?_⟩
  · rw [he]
    exact le_max_left _ _
  · rw [he]
    exact le_max_right _ _

/-- Witness for C3, at a reading whose accumulator alone reaches only
55/100. -/
theorem synthetic_rule_floor_witness :
    fusedScore sigSynth = max (baseScore sigSynth) (75/100) ∧
      baseScore sigSynth ≤ fusedScore sigSynth ∧ 75/100 ≤ fusedScore sigSynth :=
  synthetic_rule_floor sigSynth rfl (by decide) (by decide)

/-- C9: whenever the compound synthetic rule fires, the returned
recommendation is high_priority_manual_review, because the forced floor
75/100 exceeds the upper cut point 6/10. -/
theorem synthetic_rule_high_priority (s : Signals) (h1 : s.exif_present = false)
    (h2 : s.mean_ela < 4) (h3 : s.hf < 35) :
    (analyzeSignals s).recommendation = "high_priority_manual_review" := by
  have hc : syntheticIndicator s := ⟨h1, h2, h3⟩
  have hge : 75/100 ≤ fusedScore s := by
    unfold fusedScore
    rw [if_pos hc]
    exact le_max_right _ _
  have hclamp : 75/100 ≤ clampedScore s :=
    le_trans (le_min hge (by norm_num)) (le_max_right _ _)
  show recommendationOf (clampedScore s) = _
  unfold recommendationOf
  rw [if_neg (not_lt.mpr (le_trans (by norm_num : (3:ℚ)/10 ≤ 75/100) hclamp)),
    if_neg (not_lt.mpr (le_trans (by norm_num : (6:ℚ)/10 ≤ 75/100) hclamp))]

/-- Witness for C9 at a concrete reading satisfying the compound rule. -/
theorem synthetic_rule_high_priority_witness :
    (analyzeSignals sigSynth2).recommendation = "high_priority_manual_review" :=
  synthetic_rule_high_priority sigSynth2 rfl (by decide) (by decide)

lemma ite_weight_mono {c d : Prop} [Decidable c] [Decidable d] (h : c → d) {w : ℚ}
    (hw : 0 ≤ w) : (if c then w else 0) ≤ (if d then w else 0) := by
  by_cases hc : c
  · rw [if_pos hc, if_pos (h hc)]
  · rw [if_neg hc]
    split
    · exact hw
    · exact le_refl 0

lemma baseScore_mono {s t : Signals} (h1 : exifMissing s → exifMissing t)
    (h2 : suspiciousSoftware s → suspiciousSoftware t) (h3 : elaAnomaly s → elaAnomaly t)
    (h4 : lowTexture s → lowTexture t) (h5 : highCorrelation s → highCorrelation t) :
    baseScore s ≤ baseScore t := by
  unfold baseScore
  exact add_le_add (add_le_add (add_le_add (add_le_add
    (ite_weight_mono h1 (by norm_num)) (ite_weight_mono h2 (by norm_num)))
    (ite_weight_mono h3 (by norm_num))) (ite_weight_mono h4 (by norm_num)))
    (ite_weight_mono h5 (by norm_num))

lemma fusedScore_mono {s t : Signals} (hb : baseScore s ≤ baseScore t)
    (h6 : syntheticIndicator s → syntheticIndicator t) : fusedScore s ≤ fusedScore t := by
  unfold fusedScore
  by_cases hc : syntheticIndicator s
  · rw [if_pos hc, if_pos (h6 hc)]
    exact max_le_max hb le_rfl
  · rw [if_neg hc]
    split
    · exact le_trans hb (le_max_left _ _)
    · exact hb

/-- C4: the fusion is monotone in the triggering conditions.  When every
condition that fires on the first reading also fires on the second — in
particular when the second reading makes exactly one further condition fire
and agrees otherwise — the reported tampering score cannot decrease. -/
theorem score_monotone (s t : Signals) (h1 : exifMissing s → exifMissing t)
    (h2 : suspiciousSoftware s → suspiciousSoftware t) (h3 : elaAnomaly s → elaAnomaly t)
    (h4 : lowTexture s → lowTexture t) (h5 : highCorrelation s → highCorrelation t)
    (h6 : syntheticIndicator s → syntheticIndicator t) :
    (analyzeSignals s).tampering_score ≤ (analyzeSignals t).tampering_score := by
  rw [tampering_eq_clamped, tampering_eq_clamped]
  exact max_le_max le_rfl
    (min_le_min (fusedScore_mono (baseScore_mono h1 h2 h3 h4 h5) h6) le_rfl)

/-- Witness for C4: lowering the texture variance of a benign reading below
the threshold makes exactly one further condition fire. -/
theorem score_monotone_witness :
    (analyzeSignals sigBenign).tampering_score ≤ (analyzeSignals sigLowTex).tampering_score :=
  score_monotone sigBenign sigLowTex (fun h => h) (fun h => h) (fun h => h)
    (fun _ => by decide) (fun h => h) (fun h => nomatch h.1)

/-- C5: when decoding fails, analyze_image_bytes propagates the DecodeError
unchanged to its caller, and every successful result comes from a decoded
image — no partial or silently-zeroed FusionResult is ever produced for
undecodable bytes. -/
theorem analyze_propagates_decode_failure (decode : List ℕ → Except DecodeError Signals)
    (bytes : List ℕ) :
    (∀ err, decode bytes = .error err → analyze_image_bytes decode bytes = .error err) ∧
      (∀ r, analyze_image_bytes decode bytes = .ok r →
        ∃ s, decode bytes = .ok s ∧ r = analyzeSignals s) := by
  constructor
  · intro err h
    simp only [analyze_image_bytes, h]
  · intro r h
    cases hd : decode bytes with
    | error e =>
      simp only [analyze_image_bytes, hd] at h
      exact Except.noConfusion h
    | ok s =>
      simp only [analyze_image_bytes, hd, Except.ok.injEq] at h
      exact ⟨s, rfl, h.symm⟩

/-- C6: extract_exif never raises: whatever its source of EXIF data does — a
raising call, an absent or empty metadata block — it returns presence false
with software tag and all three timestamps None, and whenever the returned
presence flag is false all four other fields are None. -/
theorem extract_exif_total (e : ExifSource) :
    ((extract_exif e).1 = false → extract_exif e = (false, none, none, none, none)) ∧
      (e.raises = true → extract_exif e = (false, none, none, none, none)) ∧
      (e.items = [] → extract_exif e = (false, none, none, none, none)) := by
  unfold extract_exif
  split_ifs with h1 h2
  · exact ⟨fun _ => rfl, fun _ => rfl, fun _ => rfl⟩
  · exact ⟨fun _ => rfl, fun _ => rfl, fun _ => rfl⟩
  · exact ⟨fun hc => (nomatch hc), fun hr => absurd hr h1, fun hi => absurd hi h2⟩

lemma mem_ite_singleton {c : Prop} [Decidable c] {x y : String} :
    (x ∈ if c then [y] else []) ↔ c ∧ x = y := by
  split_ifs with h
  · simp [h]
  · simp [h]

lemma softwareReason_head (t : Option String) :
    (softwareReason t).data.head? = some 'S' := by
  cases t
  · rfl
  · rfl

lemma softwareReason_ne_corrReason (t : Option String) : softwareReason t ≠ corrReason := by
  intro h
  have h2 : (softwareReason t).data.head? = corrReason.data.head? := by rw [h]
  rw [softwareReason_head] at h2
  exact absurd h2 (by decide)

lemma corrReason_mem_parts (s : Signals) :
    corrReason ∈ explanationParts s ↔ highCorrelation s := by
  unfold explanationParts
  simp only [List.mem_append, mem_ite_singleton]
  constructor
  · rintro (((((⟨_, he⟩ | ⟨_, he⟩) | ⟨_, he⟩) | ⟨_, he⟩) | ⟨h, _⟩) | ⟨_, he⟩)
    · exact absurd he (by decide)
    · exact absurd he.symm (softwareReason_ne_corrReason s.software_tag)
    · exact absurd he (by decide)
    · exact absurd he (by decide)
    · exact h
    · exact absurd he (by decide)
  · intro h
    exact Or.inl (Or.inr ⟨h, trivial⟩)

/-- C7: the color-correlation condition is evaluated only as a conjunction —
the 3/10 weight enters the accumulated score and its reason phrase is
recorded exactly when all three pairwise channel correlations strictly exceed
197/200; no single or pair of high correlations contributes on its own. -/
theorem correlation_conjunction (s : Signals) :
    (highCorrelation s ↔
        197/200 < s.corr_rg ∧ 197/200 < s.corr_gb ∧ 197/200 < s.corr_rb) ∧
      (corrReason ∈ explanationParts s ↔ highCorrelation s) ∧
      baseScore s =
        (if exifMissing s then 25/100 else 0) + (if suspiciousSoftware s then 3/10 else 0)
          + (if elaAnomaly s then 35/100 else 0) + (if lowTexture s then 3/10 else 0)
          + (if highCorrelation s then 3/10 else 0) :=
  ⟨Iff.rfl, corrReason_mem_parts s, rfl⟩

lemma ite_singleton_nil {c : Prop} [Decidable c] {y : String} :
    (if c then [y] else []) = [] ↔ ¬c := by
  split_ifs with h
  · simp [h]
  · simp [h]

lemma parts_nil_iff (s : Signals) : explanationParts s = [] ↔ noneFired s := by
  unfold explanationParts noneFired
  simp only [List.append_eq_nil, ite_singleton_nil]
  tauto

lemma explanation_of_noneFired {s : Signals} (h : noneFired s) :
    (analyzeSignals s).explanation = noSignalsPhrase := by
  show (if explanationParts s = [] then noSignalsPhrase else _) = _
  rw [if_pos ((parts_nil_iff s).mpr h)]

/-- Counterexample to C8 as stated: on a reading where no condition fires the
explanation is not the lowercase phrase the claim quotes — the code emits a
capitalized phrase with a trailing period. -/
theorem explanation_phrase_cex :
    noneFired sigBenign ∧
      (analyzeSignals sigBenign).explanation ≠ "no tampering signals detected" := by
  have hn : noneFired sigBenign := by
    refine ⟨fun h => (nomatch h), fun h => (nomatch h), ?_, by decide, ?_,
      fun h => (nomatch h.1)⟩
    · norm_num [elaAnomaly, sigBenign]
    · norm_num [highCorrelation, sigBenign]
  refine ⟨hn, ?_⟩
  rw [explanation_of_noneFired hn]
  decide

/-- C8 as amended: if no condition fired the explanation is exactly the fixed
phrase of line 143, which is capitalized and ends with a period; otherwise it
is the separator-join of the ordered reason phrases of the triggered
conditions. -/
theorem explanation_join (s : Signals) :
    (noneFired s → (analyzeSignals s).explanation = "No tampering signals detected.") ∧
      (¬noneFired s →
        (analyzeSignals s).explanation = joinSep (" | ") (explanationParts s) ∧
          explanationParts s ≠ []) := by
  constructor
  · intro h
    exact explanation_of_noneFired h
  · intro h
    have hne : explanationParts s ≠ [] := fun he => h ((parts_nil_iff s).mp he)
    refine ⟨?_, hne⟩
    show (if explanationParts s = [] then noSignalsPhrase else _) = _
    rw [if_neg hne]

lemma ite_weight_nonneg {c : Prop} [Decidable c] {w : ℚ} (hw : 0 ≤ w) :
    0 ≤ if c then w else 0 := by
  split
  · exact hw
  · exact le_refl 0

lemma baseScore_quarter {s : Signals} (h : ¬noneFired s) : 1/4 ≤ baseScore s := by
  have t1 := ite_weight_nonneg (c := exifMissing s) (by norm_num : (0:ℚ) ≤ 25/100)
  have t2 := ite_weight_nonneg (c := suspiciousSoftware s) (by norm_num : (0:ℚ) ≤ 3/10)
  have t3 := ite_weight_nonneg (c := elaAnomaly s) (by norm_num : (0:ℚ) ≤ 35/100)
  have t4 := ite_weight_nonneg (c := lowTexture s) (by norm_num : (0:ℚ) ≤ 3/10)
  have t5 := ite_weight_nonneg (c := highCorrelation s) (by norm_num : (0:ℚ) ≤ 3/10)
  by_cases c1 : exifMissing s
  · unfold baseScore
    rw [if_pos c1]
    linarith
  by_cases c2 : suspiciousSoftware s
  · unfold baseScore
    rw [if_pos c2]
    linarith
  by_cases c3 : elaAnomaly s
  · unfold baseScore
    rw [if_pos c3]
    linarith
  by_cases c4 : lowTexture s
  · unfold baseScore
    rw [if_pos c4]
    linarith
  by_cases c5 : highCorrelation s
  · unfold baseScore
    rw [if_pos c5]
    linarith
  exact absurd ⟨c1, c2, c3, c4, c5, fun hc6 => c1 hc6.1⟩ h

lemma clamped_quarter {s : Signals} (h : ¬noneFired s) : 1/4 ≤ clampedScore s := by
  have hb := baseScore_quarter h
  have hfu : 1/4 ≤ fusedScore s := by
    unfold fusedScore
    split
    · exact le_trans hb (le_max_left _ _)
    · exact hb
  exact le_trans (le_min hfu (by norm_num)) (le_max_right _ _)

lemma clampedScore_zero_iff (s : Signals) : clampedScore s = 0 ↔ noneFired s := by
  constructor
  · intro h0
    by_contra h
    have hq := clamped_quarter h
    rw [h0] at hq
    norm_num at hq
  · rintro ⟨n1, n2, n3, n4, n5, n6⟩
    unfold clampedScore fusedScore baseScore
    rw [if_neg n6, if_neg n1, if_neg n2, if_neg n3, if_neg n4, if_neg n5]
    norm_num

lemma joinSep_length_ge (sep a : String) (rest : List String) :
    a.length ≤ (joinSep sep (a :: rest)).length := by
  cases rest with
  | nil => exact le_rfl
  | cons b r =>
    show a.length ≤ (a ++ sep ++ joinSep sep (b :: r)).length
    rw [String.length_append, String.length_append]
    omega

lemma mem_parts_lengths {s : Signals} {p : String} (hp : p ∈ explanationParts s) :
    21 ≤ p.length ∧ p.length ≠ 30 := by
  unfold explanationParts at hp
  simp only [List.mem_append, mem_ite_singleton] at hp
  rcases hp with ((((⟨_, he⟩ | ⟨_, he⟩) | ⟨_, he⟩) | ⟨_, he⟩) | ⟨_, he⟩) | ⟨_, he⟩
  · rw [he]
    exact ⟨by decide, by decide⟩
  · rw [he]
    cases hs : s.software_tag with
    | none => exact ⟨by decide, by decide⟩
    | some t =>
      have hlen : (softwareReason (some t)).length = 32 + t.length := by
        show ("Software tag indicates editing: " ++ t).length = 32 + t.length
        rw [String.length_append]
        have h32 : ("Software tag indicates editing: " : String).length = 32 := rfl
        rw [h32]
      rw [hlen]
      omega
  · rw [he]
    exact ⟨by decide, by decide⟩
  · rw [he]
    exact ⟨by decide, by decide⟩
  · rw [he]
    exact ⟨by decide, by decide⟩
  · rw [he]
    exact ⟨by decide, by decide⟩

lemma joinSep_parts_ne_phrase {s : Signals} (h : explanationParts s ≠ []) :
    joinSep (" | ") (explanationParts s) ≠ noSignalsPhrase := by
  intro he
  have hlen := congrArg String.length he
  have hph : noSignalsPhrase.length = 30 := rfl
  rw [hph] at hlen
  cases hp : explanationParts s with
  | nil => exact h hp
  | cons a rest =>
    rw [hp] at hlen
    have ha := mem_parts_lengths (s := s) (p := a) (by rw [hp]; exact List.mem_cons_self a rest)
    cases rest with
    | nil =>
      have h1 : (joinSep (" | ") [a]).length = a.length := rfl
      rw [h1] at hlen
      exact ha.2 hlen
    | cons b r =>
      have hb := mem_parts_lengths (s := s) (p := b)
        (by rw [hp]; exact List.mem_cons_of_mem _ (List.mem_cons_self b r))
      have h2 : joinSep (" | ") (a :: b :: r) = a ++ " | " ++ joinSep (" | ") (b :: r) := rfl
      rw [h2, String.length_append, String.length_append] at hlen
      have hj := joinSep_length_ge (" | ") b r
      have hsep : (" | " : String).length = 3 := rfl
      rw [hsep] at hlen
      omega

/-- C10: for every successfully decoded image the explanation is the fixed
no-signals phrase exactly when the returned tampering score is zero — every
condition that fires records a reason and pushes the score to at least 1/4,
and when none fires the score is zero and the explanation is the fixed
phrase. -/
theorem explanation_iff_zero_score (s : Signals) :
    (analyzeSignals s).explanation = noSignalsPhrase ↔
      (analyzeSignals s).tampering_score = 0 := by
  rw [tampering_eq_clamped]
  constructor
  · intro he
    by_cases hp : explanationParts s = []
    · exact (clampedScore_zero_iff s).mpr ((parts_nil_iff s).mp hp)
    · exfalso
      have hx : (analyzeSignals s).explanation = joinSep (" | ") (explanationParts s) := by
        show (if explanationParts s = [] then noSignalsPhrase else _) = _
        rw [if_neg hp]
      rw [hx] at he
      exact joinSep_parts_ne_phrase hp he
  · intro h0
    exact explanation_of_noneFired ((clampedScore_zero_iff s).mp h0)

end FraudDetector
